import Mathlib

/-!
Verification development for the AI-agent page (`src/app/ai-agent/page.jsx`).

The embedding models the query dispatcher (`handleQuery`), the wallet
connect handler (`handleConnect`), the price lookup (`fetchCryptoPrice`),
the symbol extraction (`extractCryptoSymbol` over the regex
`price of (\w+)` with the `i` flag), and the streaming response loop of
`handleOllamaQuery`, which parses each decoded read with `JSON.parse`
and accumulates the `response` field of each successfully parsed chunk.

JavaScript dynamic values reachable in this code are modelled by
`JsValue`; `JSON.parse` is modelled by a fuel-indexed recursive descent
parser `jsonParse` that accepts exactly a single JSON document
(surrounding whitespace allowed, trailing garbage rejected).
-/

namespace LitAgent

/-- Model of the JavaScript values this code can observe: everything
`JSON.parse` can produce, plus `undefined` as the result of reading an
absent property. Numbers keep their source lexeme (no claim in this
development depends on numeric normalisation). -/
inductive JsValue where
  | null
  | undefined
  | bool (b : Bool)
  | num (raw : String)
  | str (s : String)
  | arr (elems : List JsValue)
  | obj (fields : List (String × JsValue))

/-- A JSON numeric lexeme denotes zero exactly when every digit of its
mantissa (the part before any exponent marker) is `0`. -/
def jsNumIsZero (raw : String) : Bool :=
  (raw.toList.takeWhile (fun c => !(c == 'e' || c == 'E'))).all
    (fun c => !c.isDigit || c == '0')

/-- JavaScript truthiness of a `JsValue` (`null`/`undefined`/`false`/
`0`/`""` are falsy; every object and array is truthy). -/
def jsTruthy : JsValue → Bool
  | .null => false
  | .undefined => false
  | .bool b => b
  | .num raw => ! jsNumIsZero raw
  | .str s => ! s.isEmpty
  | .arr _ => true
  | .obj _ => true

/-- JavaScript property access `base[key]`: a `TypeError` (modelled as
`Except.error`) when the base is `null` or `undefined`; on an object the
named field, with a later duplicate key shadowing an earlier one, and
`undefined` when the field is absent; `undefined` on every other base
(none of the keys this code reads — `response`, `usd`, a lower-cased
asset token — is an own property of a primitive, and array index or
`length` reads are not reachable with a truthy result that this code
distinguishes). -/
def jsProp : JsValue → String → Except Unit JsValue
  | .null, _ => .error ()
  | .undefined, _ => .error ()
  | .obj fields, k => .ok ((fields.reverse.lookup k).getD .undefined)
  | _, _ => .ok .undefined

mutual

/-- JavaScript `ToString` on the modelled values, as used by `+=` and by
template-literal interpolation (numbers keep their lexeme). -/
def jsToString : JsValue → String
  | .null => "null"
  | .undefined => "undefined"
  | .bool b => if b then "true" else "false"
  | .num raw => raw
  | .str s => s
  | .arr es => jsArrayJoin es
  | .obj _ => "[object Object]"

/-- `Array.prototype.toString`: elements joined by commas, with `null`
and `undefined` elements contributing the empty string. -/
def jsArrayJoin : List JsValue → String
  | [] => ""
  | e :: es =>
    jsArrayElem e ++ (if es.isEmpty then "" else "," ++ jsArrayJoin es)

/-- One array element under `Array.prototype.join`. -/
def jsArrayElem : JsValue → String
  | .null => ""
  | .undefined => ""
  | .bool b => if b then "true" else "false"
  | .num raw => raw
  | .str s => s
  | .arr es => jsArrayJoin es
  | .obj _ => "[object Object]"

end

/-- Skip JSON insignificant whitespace. -/
def skipWs : List Char → List Char
  | [] => []
  | c :: cs =>
    if c == ' ' || c == '\t' || c == '\n' || c == '\r' then skipWs cs
    else c :: cs

/-- Hex digit value, for `\u` escapes. -/
def hexVal (c : Char) : Option Nat :=
  if '0' ≤ c ∧ c ≤ '9' then some (c.toNat - '0'.toNat)
  else if 'a' ≤ c ∧ c ≤ 'f' then some (c.toNat - 'a'.toNat + 10)
  else if 'A' ≤ c ∧ c ≤ 'F' then some (c.toNat - 'A'.toNat + 10)
  else none

/-- Parse the body of a JSON string literal (the opening quote already
consumed), returning the decoded characters and the input after the
closing quote. A `\u` escape denoting a surrogate code unit, which is
not a Unicode scalar value, decodes to U+FFFD in this model. -/
def parseStrChars : Nat → List Char → Option (List Char × List Char)
  | 0, _ => none
  | _, [] => none
  | fuel + 1, c :: cs =>
    if c == '"' then some ([], cs)
    else if c == '\\' then
      match cs with
      | [] => none
      | e :: cs1 =>
        let esc : Option (Char × List Char) :=
          if e == '"' then some ('"', cs1)
          else if e == '\\' then some ('\\', cs1)
          else if e == '/' then some ('/', cs1)
          else if e == 'b' then some ('\x08', cs1)
          else if e == 'f' then some ('\x0c', cs1)
          else if e == 'n' then some ('\n', cs1)
          else if e == 'r' then some ('\r', cs1)
          else if e == 't' then some ('\t', cs1)
          else if e == 'u' then
            match cs1 with
            | h1 :: h2 :: h3 :: h4 :: rest =>
              match hexVal h1, hexVal h2, hexVal h3, hexVal h4 with
              | some a, some b, some c2, some d =>
                let n := ((a * 16 + b) * 16 + c2) * 16 + d
                some (if n < 0xd800 then Char.ofNat n
                      else if n ≤ 0xdfff then '�'
                      else Char.ofNat n, rest)
              | _, _, _, _ => none
            | _ => none
          else none
        match esc with
        | none => none
        | some (ch, rest) =>
          match parseStrChars fuel rest with
          | some (s, r) => some (ch :: s, r)
          | none => none
    else if c.toNat < 0x20 then none
    else
      match parseStrChars fuel cs with
      | some (s, r) => some (c :: s, r)
      | none => none

/-- Split a leading run of decimal digits. -/
def digitSpan (cs : List Char) : List Char × List Char :=
  (cs.takeWhile Char.isDigit, cs.dropWhile Char.isDigit)

/-- Lex a JSON number (`-? int frac? exp?`), returning its lexeme and
the rest of the input. A leading-zero violation such as `01` leaves the
extra digits unconsumed, so the surrounding structural parse rejects the
document, as `JSON.parse` does. -/
def parseNumRaw (cs : List Char) : Option (List Char × List Char) :=
  let signSplit : List Char × List Char :=
    match cs with
    | '-' :: rest => (['-'], rest)
    | _ => ([], cs)
  let sign := signSplit.1
  let cs1 := signSplit.2
  match cs1 with
  | [] => none
  | c :: cs2 =>
    if !c.isDigit then none
    else
      let intSplit : List Char × List Char :=
        if c == '0' then ([c], cs2) else digitSpan (c :: cs2)
      let intPart := intSplit.1
      let afterInt := intSplit.2
      let fracSplit : List Char × List Char :=
        match afterInt with
        | '.' :: rest =>
          let ds := digitSpan rest
          if ds.1.isEmpty then ([], afterInt) else ('.' :: ds.1, ds.2)
        | _ => ([], afterInt)
      let fracPart := fracSplit.1
      let afterFrac := fracSplit.2
      let expSplit : List Char × List Char :=
        match afterFrac with
        | e :: rest =>
          if e == 'e' || e == 'E' then
            match rest with
            | s :: rest2 =>
              if s == '+' || s == '-' then
                let ds := digitSpan rest2
                if ds.1.isEmpty then ([], afterFrac)
                else (e :: s :: ds.1, ds.2)
              else
                let ds := digitSpan rest
                if ds.1.isEmpty then ([], afterFrac) else (e :: ds.1, ds.2)
            | [] => ([], afterFrac)
          else ([], afterFrac)
        | [] => ([], afterFrac)
      some (sign ++ intPart ++ fracPart ++ expSplit.1, expSplit.2)

mutual

/-- Recursive-descent JSON value parser, fuel-indexed. Returns the value
and the unconsumed input. -/
def parseVal : Nat → List Char → Option (JsValue × List Char)
  | 0, _ => none
  | fuel + 1, cs =>
    match skipWs cs with
    | [] => none
    | c :: rest =>
      if c == 'n' then
        match rest with
        | 'u' :: 'l' :: 'l' :: r => some (.null, r)
        | _ => none
      else if c == 't' then
        match rest with
        | 'r' :: 'u' :: 'e' :: r => some (.bool true, r)
        | _ => none
      else if c == 'f' then
        match rest with
        | 'a' :: 'l' :: 's' :: 'e' :: r => some (.bool false, r)
        | _ => none
      else if c == '"' then
        match parseStrChars (rest.length + 1) rest with
        | some (s, r) => some (.str (String.mk s), r)
        | none => none
      else if c == '[' then
        match skipWs rest with
        | ']' :: r => some (.arr [], r)
        | cs1 =>
          match parseVal fuel cs1 with
          | some (v, r1) =>
            match parseArrTail fuel r1 with
            | some (vs, r2) => some (.arr (v :: vs), r2)
            | none => none
          | none => none
      else if c == '\x7b' then
        match skipWs rest with
        | '\x7d' :: r => some (.obj [], r)
        | cs1 =>
          match parseMember fuel cs1 with
          | some (kv, r1) =>
            match parseObjTail fuel r1 with
            | some (kvs, r2) => some (.obj (kv :: kvs), r2)
            | none => none
          | none => none
      else
        match parseNumRaw (c :: rest) with
        | some (ds, r) => some (.num (String.mk ds), r)
        | none => none

/-- After one array element: `,` then the next element, or `]`. -/
def parseArrTail : Nat → List Char → Option (List JsValue × List Char)
  | 0, _ => none
  | fuel + 1, cs =>
    match skipWs cs with
    | ']' :: r => some ([], r)
    | ',' :: r =>
      match parseVal fuel r with
      | some (v, r1) =>
        match parseArrTail fuel r1 with
        | some (vs, r2) => some (v :: vs, r2)
        | none => none
      | none => none
    | _ => none

/-- One `"key" : value` object member. -/
def parseMember : Nat → List Char → Option ((String × JsValue) × List Char)
  | 0, _ => none
  | fuel + 1, cs =>
    match skipWs cs with
    | '"' :: rest =>
      match parseStrChars (rest.length + 1) rest with
      | some (k, r1) =>
        match skipWs r1 with
        | ':' :: r2 =>
          match parseVal fuel r2 with
          | some (v, r3) => some ((String.mk k, v), r3)
          | none => none
        | _ => none
      | none => none
    | _ => none

/-- After one object member: `,` then the next member, or the closing
brace. -/
def parseObjTail : Nat → List Char → Option (List (String × JsValue) × List Char)
  | 0, _ => none
  | fuel + 1, cs =>
    match skipWs cs with
    | '\x7d' :: r => some ([], r)
    | ',' :: r =>
      match parseMember fuel r with
      | some (kv, r1) =>
        match parseObjTail fuel r1 with
        | some (kvs, r2) => some (kv :: kvs, r2)
        | none => none
      | none => none
    | _ => none

end

/-- Model of `JSON.parse`: exactly one JSON document, surrounding
whitespace allowed, anything after the document rejected. `none` models
the thrown `SyntaxError`. -/
def jsonParse (s : String) : Option JsValue :=
  match parseVal (s.length + 1) s.toList with
  | some (v, rest) => if (skipWs rest).isEmpty then some v else none
  | none => none

/-- JS `String.prototype.toLowerCase` on the character range this code
compares (ASCII): each character lower-cased. -/
def jsToLowerCase (s : String) : String :=
  String.mk (s.toList.map Char.toLower)

/-- The character set `String.prototype.trim` strips: ECMA WhiteSpace —
TAB, VT, FF, SP, NBSP, ZWNBSP/BOM and the Zs space separators — plus
the LineTerminators LF, CR, LS, PS. -/
def jsWhitespace (c : Char) : Bool :=
  c == '\t' || c == '\n' || c.toNat == 0x0b || c.toNat == 0x0c ||
  c == '\r' || c == ' ' || c.toNat == 0xa0 || c.toNat == 0x1680 ||
  (decide (0x2000 ≤ c.toNat) && decide (c.toNat ≤ 0x200a)) ||
  c.toNat == 0x2028 || c.toNat == 0x2029 || c.toNat == 0x202f ||
  c.toNat == 0x205f || c.toNat == 0x3000 || c.toNat == 0xfeff

/-- JS `String.prototype.trim`: strip leading and trailing runs of the
ECMA whitespace and line-terminator characters. -/
def jsTrim (s : String) : String :=
  String.mk
    (((s.toList.dropWhile jsWhitespace).reverse.dropWhile
        jsWhitespace).reverse)

/-- The static `cryptoSymbolMappings` object literal, in source order. -/
def cryptoSymbolMappings : List (String × String) :=
  [("btc", "bitcoin"),
   ("eth", "ethereum"),
   ("doge", "dogecoin"),
   ("ada", "cardano"),
   ("xrp", "ripple"),
   ("matic", "polygon"),
   ("sol", "solana"),
   ("bnb", "binancecoin"),
   ("dot", "polkadot")]

/-- The value `cryptoSymbolMappings[userSymbol] || userSymbol` can
take. A bracket read on the object literal sees the nine own keys
first, and then the prototype chain: `Object.prototype` members are
truthy, so for a key naming one of them the `||` fallback is not taken
and the inherited function or object is returned instead of the token.
The key is the lower-casing of a `\w+` capture, and the only
`Object.prototype` member names that are themselves all lower-case
`\w+` strings are `constructor` (the `Object` constructor function)
and `__proto__` (whose read yields the `Object.prototype` object);
every other miss reads `undefined`, which is falsy, so the token
passes through. -/
inductive ResolvedSymbol where
  | canonical (id : String)
  | token (tok : String)
  | protoConstructor
  | protoObject
deriving DecidableEq

/-- The string the resolved value coerces to — in the answer template
literal, and as the property key of `res.data[symbol]` (`ToPropertyKey`
and `ToString` agree here): the string itself for the two string cases,
native-function source text for the inherited constructor, and the
default object stamp for the inherited prototype object. -/
def resolvedSymbolText : ResolvedSymbol → String
  | .canonical id => id
  | .token tok => tok
  | .protoConstructor => "function Object() \x7b [native code] \x7d"
  | .protoObject => "[object Object]"

/-- The resolution step of `extractCryptoSymbol`:
`cryptoSymbolMappings[userSymbol] || userSymbol` applied to the
lower-cased token — the mapped identifier when the own-key lookup
yields a truthy (non-empty) string, the inherited `Object.prototype`
member for the two reachable inherited keys, and the lower-cased token
itself otherwise. -/
def resolveSymbol (token : String) : ResolvedSymbol :=
  let s := jsToLowerCase token
  match cryptoSymbolMappings.lookup s with
  | some v => if v.isEmpty then .token s else .canonical v
  | none =>
    if s = "constructor" then .protoConstructor
    else if s = "__proto__" then .protoObject
    else .token s

/-- A word character of the regex class `\w`: ASCII letter, digit, or
underscore. -/
def isWordChar (c : Char) : Bool :=
  c.isAlphanum || c == '_'

/-- Case-insensitive match of a literal at the head of the input,
returning the remaining input on success. -/
def matchLitCI : List Char → List Char → Option (List Char)
  | [], cs => some cs
  | _ :: _, [] => none
  | l :: ls, c :: cs => if l.toLower == c.toLower then matchLitCI ls cs else none

/-- Try the pattern `price of (\w+)` (case-insensitive) anchored at the
head of the input: the literal `price of ` followed by a maximal
non-empty run of word characters, which is the captured group. -/
def priceOfAt (cs : List Char) : Option String :=
  match matchLitCI "price of ".toList cs with
  | none => none
  | some rest =>
    let w := rest.takeWhile isWordChar
    if w.isEmpty then none else some (String.mk w)

/-- Leftmost match of `price of (\w+)` with the `i` flag: try the
pattern at each position from the left, as the regex engine does, and
return the first captured group. -/
def priceOfSearch : List Char → Option String
  | [] => none
  | c :: cs =>
    match priceOfAt (c :: cs) with
    | some w => some w
    | none => priceOfSearch cs

/-- `extractCryptoSymbol`: match `query.match(/price of (\w+)/i)`,
return `null` (here `none`) when the regex does not match, otherwise
lower-case the captured group and resolve it through the mapping. -/
def extractCryptoSymbol (query : String) : Option ResolvedSymbol :=
  (priceOfSearch query.toList).map resolveSymbol

/-- Boolean infix test on character lists, for `String.includes`. -/
def hasInfix (pat : List Char) : List Char → Bool
  | [] => pat.isEmpty
  | c :: cs => pat.isPrefixOf (c :: cs) || hasInfix pat cs

/-- The dispatch guard `query.toLowerCase().includes('price of')`. -/
def containsPriceOf (query : String) : Bool :=
  hasInfix "price of".toList (jsToLowerCase query).toList

/-- The body of the `while` read loop of `handleOllamaQuery` for one
decoded chunk: `JSON.parse` the whole chunk, then read `.response`.
`none` means the `catch` arm ran (parse failure, or the `TypeError` of
reading `.response` on `null`); `some d` means `fullResponse` grew by
`d`, the stringification of a truthy `response` field and `""`
otherwise (the `|| ''` fallback). -/
def chunkDelta (chunk : String) : Option String :=
  match jsonParse chunk with
  | none => none
  | some v =>
    match jsProp v "response" with
    | .error _ => none
    | .ok r => some (if jsTruthy r then jsToString r else "")

/-- One loop iteration on the assembly state: first component is
`fullResponse`, second the successive values the `setResponse` updater
produced (the partial updates, starting from the empty display set by
`handleQuery`). A chunk whose handler threw changes nothing; a handled
chunk appends its delta and publishes the new accumulated value. -/
def assembleStep (acc : String × List String) (chunk : String) :
    String × List String :=
  match chunkDelta chunk with
  | none => acc
  | some d => (acc.1 ++ d, acc.2 ++ [acc.1 ++ d])

/-- The full read loop over the decoded chunks of the stream, in
arrival order, from an empty accumulator. -/
def assemble (chunks : List String) : String × List String :=
  chunks.foldl assembleStep ("", [])

/-- Message roles as stored in `chatHistory` (`'user'` / `'ai'`). -/
inductive Role where
  | user
  | ai
deriving DecidableEq

/-- One `chatHistory` entry: `{ text, sender }`. -/
structure ChatMessage where
  text : String
  sender : Role
deriving DecidableEq

/-- The component state the claims observe: the conversation log and
the `response` display string. -/
structure AgentState where
  chatHistory : List ChatMessage
  response : String
deriving DecidableEq

/-- Behaviour of the wallet collaborator for one connect attempt:
`window.ethereum` absent, `eth_requestAccounts` throwing, or a returned
account list. (`authenticateUser` catches every error internally and
never throws, so its outcome does not affect the observed state.) -/
inductive WalletEnv where
  | noProvider
  | reqError
  | accounts (addrs : List String)
deriving DecidableEq

/-- Behaviour of the CoinGecko price call for one query: the `axios.get`
throwing, or returning a response whose `data` is the given value. -/
inductive PriceServiceOutcome where
  | netError
  | success (data : JsValue)

/-- Behaviour of the inference service for one query: `fetch` throwing,
a non-ok HTTP response, or an ok response whose body yields the given
decoded chunks in order and then ends. -/
inductive OllamaEnv where
  | fetchError
  | notOk
  | stream (chunks : List String)

/-- The external collaborators' behaviour for one submitted query. -/
structure Env where
  wallet : WalletEnv
  price : PriceServiceOutcome
  ollama : OllamaEnv

/-- `fetchCryptoPrice`: never throws. On a network error it returns the
string `'Error fetching price'`; with a response it returns
`res.data[symbol].usd` when `res.data`, `res.data[symbol]` and that
`usd` field are all truthy, and the string `'Price not found'`
otherwise. (The `jsProp` error arms are unreachable: the base was just
checked truthy, hence is not `null`/`undefined`.) -/
def fetchCryptoPrice (symbol : String) (svc : PriceServiceOutcome) : JsValue :=
  match svc with
  | .netError => .str "Error fetching price"
  | .success data =>
    if jsTruthy data then
      match jsProp data symbol with
      | .error _ => .str "Price not found"
      | .ok v =>
        if jsTruthy v then
          match jsProp v "usd" with
          | .error _ => .str "Price not found"
          | .ok usd => if jsTruthy usd then usd else .str "Price not found"
        else .str "Price not found"
    else .str "Price not found"

/-- The text of the price answer:
`` `The current price of ${cryptoSymbol} is $${cryptoPrice}` ``. -/
def priceMessage (sym : ResolvedSymbol) (svc : PriceServiceOutcome) : String :=
  "The current price of " ++ resolvedSymbolText sym ++ " is $" ++
    jsToString (fetchCryptoPrice (resolvedSymbolText sym) svc)

/-- `handleConnect`: every arm only calls `setResponse`; the
intermediate `'Connecting to wallet...'` and `'Connected to wallet:
...'` writes are overwritten before the handler returns, and
`chatHistory` is never touched. `authenticateUser` swallows its errors,
so with a non-empty account list the final response is always the
`'... and authenticated successfully!'` message. -/
def handleConnect (w : WalletEnv) (st : AgentState) : AgentState :=
  match w with
  | .noProvider => { st with response := "No Ethereum provider detected." }
  | .reqError => { st with response := "Failed to connect wallet or authenticate." }
  | .accounts addrs =>
    match addrs with
    | [] => { st with response := "No wallet connected" }
    | addr :: _ =>
      { st with response :=
          "Connected to wallet: " ++ addr ++ " and authenticated successfully!" }

/-- `handleOllamaQuery`: a `fetch` failure or a non-ok response only
sets an error message; with an open stream the read loop runs
`assemble`, `setResponse` has accumulated every delta on top of the
empty display `handleQuery` set, and after `done` the final
`fullResponse` — possibly empty — is appended as one `'ai'` entry. -/
def handleOllamaQuery (env : OllamaEnv) (st : AgentState) : AgentState :=
  match env with
  | .fetchError => { st with response := "Failed to get a response from Ollama" }
  | .notOk => { st with response := "Failed to get AI response" }
  | .stream chunks =>
    let res := assemble chunks
    { st with
        response := st.response ++ res.1,
        chatHistory := st.chatHistory ++ [⟨res.1, .ai⟩] }

/-- `handleQuery`: clear the display, reject a query that trims to
empty before logging anything, otherwise append the User entry and
dispatch in source order — the exact `'connect'` comparison, then the
`includes('price of')` guard (inside which a failed regex extraction
only sets an error message, and a successful one appends exactly one
`'ai'` entry with the price text), then the generic Ollama path. -/
def handleQuery (env : Env) (query : String) (st : AgentState) : AgentState :=
  let st0 : AgentState := { st with response := "" }
  if jsTrim query = "" then { st0 with response := "Please enter a query" }
  else
    let st1 : AgentState :=
      { st0 with chatHistory := st0.chatHistory ++ [⟨query, .user⟩] }
    if jsToLowerCase query = "connect" then handleConnect env.wallet st1
    else if containsPriceOf query then
      match extractCryptoSymbol query with
      | none =>
        { st1 with response := "Please provide a valid cryptocurrency name or symbol." }
      | some sym =>
        let msg := priceMessage sym env.price
        { st1 with
            response := msg,
            chatHistory := st1.chatHistory ++ [⟨msg, .ai⟩] }
    else handleOllamaQuery env.ollama st1

/-- The Intent variants of the spec's classifier. -/
inductive Intent where
  | connect
  | priceQuery (symbol : ResolvedSymbol)
  | genericQuery (text : String)
  | invalid (reason : String)
deriving DecidableEq

/-- The classification implicit in `handleQuery`'s branch structure, in
its fixed source order: empty-after-trim, exact `'connect'`
(case-insensitive), the `includes('price of')` guard refined by the
regex extraction, and the generic fallback. Reason labels follow the
spec's wording. -/
def classify (query : String) : Intent :=
  if jsTrim query = "" then .invalid "empty query"
  else if jsToLowerCase query = "connect" then .connect
  else if containsPriceOf query then
    match extractCryptoSymbol query with
    | some s => .priceQuery s
    | none => .invalid "missing asset token"
  else .genericQuery query

/-- A fixed collaborator environment for concrete evaluations. -/
def envFail : Env :=
  ⟨.noProvider, .netError, .fetchError⟩

/-- The delta one chunk contributes to the final accumulated text: the
parsed `response` delta, or nothing when its handler threw. -/
def chunkContribution (c : String) : String :=
  (chunkDelta c).getD ""

/-- Per-read concatenation: the deltas of the chunks, in arrival order,
each read parsed independently. -/
def deltasConcat : List String → String
  | [] => ""
  | c :: cs => chunkContribution c ++ deltasConcat cs

/-- A parsed chunk value whose `response` read either throws (`null` or
`undefined` base) or yields a falsy value, so the chunk contributes no
text. -/
def responseNotTruthy (v : JsValue) : Bool :=
  match jsProp v "response" with
  | .error _ => true
  | .ok r => ! jsTruthy r

theorem lookup_val_mem {α β} [BEq α] {l : List (α × β)} {k : α} {v : β}
    (h : l.lookup k = some v) : v ∈ l.map Prod.snd := by
  induction l with
  | nil => simp [List.lookup] at h
  | cons p ps ih =>
    rcases p with ⟨a, b⟩
    simp only [List.lookup] at h
    cases hb : k == a
    · rw [hb] at h
      simpa using Or.inr (ih h)
    · rw [hb] at h
      simp only [Option.some.injEq] at h
      simp [h]

theorem mappings_lookup_ne_empty {k v : String}
    (h : cryptoSymbolMappings.lookup k = some v) : v.isEmpty = false := by
  have hm := lookup_val_mem h
  have hall : ∀ x ∈ cryptoSymbolMappings.map Prod.snd, x.isEmpty = false := by
    decide
  exact hall v hm

theorem resolveSymbol_eq (t : String) :
    resolveSymbol t =
      match cryptoSymbolMappings.lookup (jsToLowerCase t) with
      | some v =>
        if v.isEmpty then ResolvedSymbol.token (jsToLowerCase t)
        else .canonical v
      | none =>
        if jsToLowerCase t = "constructor" then .protoConstructor
        else if jsToLowerCase t = "__proto__" then .protoObject
        else .token (jsToLowerCase t) :=
  rfl

theorem chunkDelta_of_parse {c : String} {v : JsValue}
    (h : jsonParse c = some v) :
    chunkDelta c =
      match jsProp v "response" with
      | .error _ => none
      | .ok r => some (if jsTruthy r then jsToString r else "") := by
  unfold chunkDelta
  rw [h]

theorem handleConnect_chatHistory (w : WalletEnv) (st : AgentState) :
    (handleConnect w st).chatHistory = st.chatHistory := by
  cases w with
  | noProvider => rfl
  | reqError => rfl
  | accounts addrs => cases addrs <;> rfl

theorem foldl_assembleStep_fst (chunks : List String)
    (acc : String × List String) :
    (List.foldl assembleStep acc chunks).1 = acc.1 ++ deltasConcat chunks := by
  induction chunks generalizing acc with
  | nil => simp [deltasConcat]
  | cons c cs ih =>
    rw [List.foldl_cons, ih]
    cases h : chunkDelta c with
    | none =>
      simp [assembleStep, h, deltasConcat, chunkContribution,
        String.append_assoc]
    | some d =>
      simp [assembleStep, h, deltasConcat, chunkContribution,
        String.append_assoc]

theorem assemble_fst (chunks : List String) :
    (assemble chunks).1 = deltasConcat chunks := by
  rw [assemble, foldl_assembleStep_fst]
  simp

theorem deltasConcat_append (l1 l2 : List String) :
    deltasConcat (l1 ++ l2) = deltasConcat l1 ++ deltasConcat l2 := by
  induction l1 with
  | nil => simp [deltasConcat]
  | cons c cs ih => simp [deltasConcat, ih, String.append_assoc]

/-- C1 (counterexample): on the query `price of btc` with the price
service erroring, `fetchCryptoPrice` returns the sentinel string
`'Error fetching price'` instead of failing, and the dispatcher appends
an Agent entry quoting that sentinel — the claim's "no Agent entry on a
failed lookup" is false on the code. -/
theorem C1_counterexample :
    envFail.price = .netError ∧
    fetchCryptoPrice "bitcoin" .netError = .str "Error fetching price" ∧
    (handleQuery envFail "price of btc" ⟨[], ""⟩).chatHistory =
      [⟨"price of btc", .user⟩,
       ⟨"The current price of bitcoin is $Error fetching price", .ai⟩] :=
  ⟨rfl, rfl, rfl⟩

/-- C1 (amended): for every price query whose symbol extraction
succeeds, the dispatcher appends exactly one Agent entry quoting the
result of `fetchCryptoPrice` — which on a network error or a missing
price is a sentinel error string, not a failure — and surfaces the same
text as the response. -/
theorem C1_price_query_always_logs_agent (env : Env) (q : String)
    (st : AgentState) (sym : ResolvedSymbol)
    (h1 : jsTrim q ≠ "") (h2 : jsToLowerCase q ≠ "connect")
    (h3 : containsPriceOf q = true) (h4 : extractCryptoSymbol q = some sym) :
    (handleQuery env q st).chatHistory =
      st.chatHistory ++ [⟨q, .user⟩, ⟨priceMessage sym env.price, .ai⟩] ∧
    (handleQuery env q st).response = priceMessage sym env.price := by
  unfold handleQuery
  rw [if_neg h1, if_neg h2]
  simp [h3, h4]

theorem C1_price_query_always_logs_agent_witness :
    (handleQuery envFail "price of btc" ⟨[], ""⟩).chatHistory =
      [] ++ [⟨"price of btc", .user⟩,
             ⟨priceMessage (.canonical "bitcoin") envFail.price, .ai⟩] ∧
    (handleQuery envFail "price of btc" ⟨[], ""⟩).response =
      priceMessage (.canonical "bitcoin") envFail.price :=
  C1_price_query_always_logs_agent envFail "price of btc" ⟨[], ""⟩
    (.canonical "bitcoin") (by decide) (by decide) (by decide) (by decide)

/-- C2 (counterexample): the empty-after-trim guard returns before the
User message is appended, so a submitted blank query leaves the
conversation log untouched — the claim's "exactly one User entry even
for a query rejected as Invalid" is false on the code. -/
theorem C2_counterexample :
    (handleQuery envFail "   " ⟨[], ""⟩).chatHistory = [] ∧
    (handleQuery envFail "   " ⟨[], ""⟩).response = "Please enter a query" :=
  ⟨rfl, rfl⟩

/-- C2 (amended): for every query that is non-empty after trimming,
exactly one User entry is appended first, followed by at most one Agent
entry, in that order; a query that trims to empty appends nothing. -/
theorem C2_user_entry_then_at_most_one_agent (env : Env) (q : String)
    (st : AgentState) (h : jsTrim q ≠ "") :
    ∃ rest, (handleQuery env q st).chatHistory =
        st.chatHistory ++ ⟨q, .user⟩ :: rest ∧
      rest.length ≤ 1 ∧ ∀ m ∈ rest, m.sender = .ai := by
  unfold handleQuery
  rw [if_neg h]
  by_cases h2 : jsToLowerCase q = "connect"
  · rw [if_pos h2]
    refine ⟨[], ?_, by simp, by simp⟩
    rw [handleConnect_chatHistory]
  · rw [if_neg h2]
    by_cases h3 : containsPriceOf q = true
    · simp only [h3, if_true]
      cases h4 : extractCryptoSymbol q with
      | none => exact ⟨[], by simp [h4], by simp, by simp⟩
      | some sym =>
        refine ⟨[⟨priceMessage sym env.price, .ai⟩], ?_, by simp, by simp⟩
        simp [h4]
    · simp only [eq_false_of_ne_true h3, if_false]
      cases ho : env.ollama with
      | fetchError => exact ⟨[], by simp [handleOllamaQuery], by simp, by simp⟩
      | notOk => exact ⟨[], by simp [handleOllamaQuery], by simp, by simp⟩
      | stream chunks =>
        refine ⟨[⟨(assemble chunks).1, .ai⟩], ?_, by simp, by simp⟩
        simp [handleOllamaQuery]

theorem C2_user_entry_then_at_most_one_agent_witness :
    ∃ rest,
      (handleQuery ⟨.noProvider, .netError, .stream []⟩ "hello"
          ⟨[], ""⟩).chatHistory =
        (⟨[], ""⟩ : AgentState).chatHistory ++ ⟨"hello", .user⟩ :: rest ∧
      rest.length ≤ 1 ∧ ∀ m ∈ rest, m.sender = .ai :=
  C2_user_entry_then_at_most_one_agent ⟨.noProvider, .netError, .stream []⟩
    "hello" ⟨[], ""⟩ (by decide)

/-- C3 (counterexample): with the wallet returning an account and
authentication completing, the connect handler only writes the
confirmation to the response display; no Agent entry is appended — the
claim's "appends an Agent confirmation message" is false on the code. -/
theorem C3_counterexample :
    (handleQuery ⟨.accounts ["0xabc"], .netError, .fetchError⟩ "connect"
        ⟨[], ""⟩).chatHistory = [⟨"connect", .user⟩] ∧
    (handleQuery ⟨.accounts ["0xabc"], .netError, .fetchError⟩ "connect"
        ⟨[], ""⟩).response =
      "Connected to wallet: 0xabc and authenticated successfully!" :=
  ⟨rfl, rfl⟩

/-- C3 (amended): connect handling never modifies the conversation log
— after a `connect` query the log holds only the new User entry; on
wallet success the confirmation is surfaced in the response only, and
on wallet failure an error is surfaced, likewise without any Agent
entry. -/
theorem C3_connect_never_appends_agent :
    (∀ env st, (handleQuery env "connect" st).chatHistory =
        st.chatHistory ++ [⟨"connect", .user⟩]) ∧
    (∀ w st, (handleConnect w st).chatHistory = st.chatHistory) ∧
    (∀ addr more st, (handleConnect (.accounts (addr :: more)) st).response =
        "Connected to wallet: " ++ addr ++ " and authenticated successfully!") ∧
    (∀ st, (handleConnect .reqError st).response =
        "Failed to connect wallet or authenticate.") := by
  refine ⟨fun env st => ?_, handleConnect_chatHistory,
    fun addr more st => rfl, fun st => rfl⟩
  unfold handleQuery
  rw [if_neg (by decide : ¬(jsTrim "connect" = "")),
    if_pos (by decide : jsToLowerCase "connect" = "connect")]
  rw [handleConnect_chatHistory]

/-- C4 (counterexample): the same two JSON fragments yield `ab` when
delivered as two reads but `` (both deltas lost) when delivered
newline-joined in one read, because the loop parses each whole read as
a single JSON document — the claimed invariance under chunk splitting
is false on the code. -/
theorem C4_counterexample :
    (assemble ["\x7b\"response\":\"a\"\x7d", "\x7b\"response\":\"b\"\x7d"]).1
      = "ab" ∧
    (assemble
        ["\x7b\"response\":\"a\"\x7d" ++ "\n" ++ "\x7b\"response\":\"b\"\x7d"]).1
      = "" ∧
    (assemble ["\x7b\"response\":\"a\"\x7d", "\x7b\"response\":\"b\"\x7d"]).1
      ≠ (assemble
          ["\x7b\"response\":\"a\"\x7d" ++ "\n" ++
            "\x7b\"response\":\"b\"\x7d"]).1 :=
  ⟨rfl, rfl, by decide⟩

/-- C4 (amended): the final accumulated text is the concatenation, in
arrival order, of the per-read deltas, where each read's entire decoded
text is parsed as one JSON document; the result therefore depends on
the read boundaries and is not invariant under re-chunking. -/
theorem C4_final_text_is_per_read_concat (chunks : List String) :
    (assemble chunks).1 = deltasConcat chunks :=
  assemble_fst chunks

/-- C5 (counterexample): `price of ???` is non-empty, is not `connect`,
and does not match the regex `price of (\w+)` — yet the dispatcher
classifies it as Invalid (the `includes('price of')` guard fires and
extraction fails), not as a GenericQuery, so the claim is false on the
code. -/
theorem C5_counterexample :
    jsTrim "price of ???" ≠ "" ∧
    jsToLowerCase "price of ???" ≠ "connect" ∧
    priceOfSearch "price of ???".toList = none ∧
    containsPriceOf "price of ???" = true ∧
    classify "price of ???" = .invalid "missing asset token" := by
  decide

/-- C5 (amended): for every non-empty query that is not `connect`
(case-insensitively) and whose lower-cased text does not contain the
substring `price of`, classification yields GenericQuery carrying the
original query text. -/
theorem C5_generic_totality (q : String) (h1 : jsTrim q ≠ "")
    (h2 : jsToLowerCase q ≠ "connect") (h3 : containsPriceOf q = false) :
    classify q = .genericQuery q := by
  unfold classify
  rw [if_neg h1, if_neg h2]
  simp [h3]

theorem C5_generic_totality_witness :
    classify "hello" = .genericQuery "hello" :=
  C5_generic_totality "hello" (by decide) (by decide) (by decide)

/-- C6: a fragment that fails to parse is skipped and assembly
continues — on the reads `not-json` then a fragment carrying `ok`, the
final accumulated text is `ok`, one partial update fires, and the
stream path completes, logging the answer as one Agent entry. -/
theorem C6_malformed_fragment_skipped :
    assemble ["not-json", "\x7b\"response\":\"ok\"\x7d"] = ("ok", ["ok"]) ∧
    handleOllamaQuery (.stream ["not-json", "\x7b\"response\":\"ok\"\x7d"])
        ⟨[], ""⟩ = ⟨[⟨"ok", .ai⟩], "ok"⟩ :=
  ⟨rfl, rfl⟩

/-- C7: on the two reads carrying `He` then `llo`, the final
accumulated text is `Hello` and the partial-update callback fires
exactly twice, with the accumulated values `He` then `Hello` in that
order. -/
theorem C7_two_reads_accumulate_hello :
    assemble ["\x7b\"response\":\"He\"\x7d", "\x7b\"response\":\"llo\"\x7d"]
      = ("Hello", ["He", "Hello"]) :=
  rfl

/-- C8: an empty stream (zero reads) assembles successfully to the
empty text with no partial updates, and the generic handler still
appends that empty final text as exactly one Agent entry. -/
theorem C8_empty_stream_success :
    assemble [] = ("", []) ∧
    ∀ st, (handleOllamaQuery (.stream []) st).chatHistory =
        st.chatHistory ++ [⟨"", .ai⟩] :=
  ⟨rfl, fun _ => rfl⟩

/-- C9 (counterexample): the bracket read walks the prototype chain, so
`resolve("constructor")` hits the inherited `Object.prototype.constructor`
— a truthy function, so the `|| userSymbol` fallback is not taken and
the returned value is not the token string; end-to-end, the query
`price of constructor` logs an Agent message quoting the stringified
`Object` constructor, not the token. `resolve("__proto__")` likewise
returns the inherited prototype object. The claim's unconditional
string passthrough is false on the code. -/
theorem C9_counterexample :
    resolveSymbol "constructor" = .protoConstructor ∧
    resolveSymbol "constructor" ≠ .token "constructor" ∧
    resolvedSymbolText (resolveSymbol "constructor") =
      "function Object() \x7b [native code] \x7d" ∧
    resolveSymbol "__proto__" = .protoObject ∧
    (handleQuery envFail "price of constructor" ⟨[], ""⟩).chatHistory =
      [⟨"price of constructor", .user⟩,
       ⟨"The current price of function Object() \x7b [native code] \x7d" ++
          " is $Error fetching price", .ai⟩] :=
  ⟨rfl, by decide, rfl, rfl, rfl⟩

/-- C9 (amended): the resolver lower-cases its input and never throws;
when the lower-cased token is one of the nine own keys of the static
mapping it returns the mapped canonical identifier, and when the lookup
misses and the lower-cased token is neither `constructor` nor
`__proto__` — the two inherited `Object.prototype` member names
reachable from a lower-cased `\w+` capture — it returns the lower-cased
token unchanged; for those two tokens the truthy inherited member is
returned instead. In particular `resolve("ETH") = "ethereum"` and
`resolve("xyz") = "xyz"`. -/
theorem C9_resolve_contract :
    (∀ t v, cryptoSymbolMappings.lookup (jsToLowerCase t) = some v →
        resolveSymbol t = .canonical v) ∧
    (∀ t, cryptoSymbolMappings.lookup (jsToLowerCase t) = none →
        jsToLowerCase t ≠ "constructor" → jsToLowerCase t ≠ "__proto__" →
        resolveSymbol t = .token (jsToLowerCase t)) ∧
    resolveSymbol "ETH" = .canonical "ethereum" ∧
    resolveSymbol "xyz" = .token "xyz" := by
  refine ⟨fun t v h => ?_, fun t h h1 h2 => ?_, rfl, rfl⟩
  · rw [resolveSymbol_eq, h]
    simp [mappings_lookup_ne_empty h]
  · rw [resolveSymbol_eq, h, if_neg h1, if_neg h2]

theorem C9_resolve_contract_witness :
    resolveSymbol "DOGE" = .canonical "dogecoin" ∧
    resolveSymbol "qqq" = .token "qqq" :=
  ⟨C9_resolve_contract.1 "DOGE" "dogecoin" (by decide),
   C9_resolve_contract.2.1 "qqq" (by decide) (by decide) (by decide)⟩

/-- C10: a chunk that parses as JSON but whose `response` read throws
(non-object base) or yields a falsy value is handled inside the
per-chunk handler — it is skipped or contributes an empty delta — so
the accumulated text is as if the chunk were absent and assembly
continues through the remaining chunks to stream end. -/
theorem C10_non_delta_chunk_harmless (pre post : List String) (c : String)
    (v : JsValue) (h1 : jsonParse c = some v)
    (h2 : responseNotTruthy v = true) :
    (chunkDelta c = none ∨ chunkDelta c = some "") ∧
    (assemble (pre ++ c :: post)).1 = (assemble (pre ++ post)).1 := by
  have hd : chunkDelta c = none ∨ chunkDelta c = some "" := by
    have hc := chunkDelta_of_parse h1
    unfold responseNotTruthy at h2
    cases hp : jsProp v "response" with
    | error e =>
      rw [hp] at hc
      exact Or.inl hc
    | ok r =>
      rw [hp] at h2 hc
      simp only [Bool.not_eq_true'] at h2
      exact Or.inr (by rw [hc]; simp [h2])
  have hzero : chunkContribution c = "" := by
    unfold chunkContribution
    cases hd with
    | inl h => rw [h]; rfl
    | inr h => rw [h]; rfl
  refine ⟨hd, ?_⟩
  rw [assemble_fst, assemble_fst, deltasConcat_append, deltasConcat_append]
  have : deltasConcat (c :: post) = deltasConcat post := by
    show chunkContribution c ++ deltasConcat post = deltasConcat post
    rw [hzero]
    simp
  rw [this]

theorem C10_non_delta_chunk_harmless_witness :
    (chunkDelta "null" = none ∨ chunkDelta "null" = some "") ∧
    (assemble ([] ++ "null" :: ["\x7b\"response\":\"ok\"\x7d"])).1 =
      (assemble ([] ++ ["\x7b\"response\":\"ok\"\x7d"])).1 :=
  C10_non_delta_chunk_harmless [] ["\x7b\"response\":\"ok\"\x7d"] "null"
    .null rfl rfl

end LitAgent
